import Mathlib

/-!
Verification of the tanzu-cli plugin-inventory core: the SQLite-backed
plugin inventory query engine, the inventory-metadata merge engine, and
the air-gapped migration orchestrator (`UploadPluginBundle`).

The query engine and the merge engine are not part of the provided
sources (only their interface, their tests and their callers are), so
their definitions below are modelled from the specification, with the
behaviour pinned by `sqlite_inventory_test.go` where the tests apply.
The migration orchestrator (`UploadPluginBundle`, `uploadImage`,
`mergePluginInventoryMetadata`) is embedded directly from the source of
package `airgapped`.
-/

/-! ## Semantic versions

Modelled from the spec: versions are semantic-version strings such as
"v0.28.0"; `AvailableVersions` is sorted in ascending semantic-version
order.  A version parses when, after an optional leading 'v', it is
three dot-separated decimal numbers; versions that do not parse are
ordered after nothing and among themselves by plain string order, so
that the comparison is total. -/

def splitDots : List Char → List (List Char)
  | [] => [[]]
  | c :: cs =>
    if c = '.' then [] :: splitDots cs
    else
      match splitDots cs with
      | [] => [[c]]
      | p :: ps => (c :: p) :: ps

def charDigit (c : Char) : Option Nat :=
  if '0' ≤ c ∧ c ≤ '9' then some (c.toNat - '0'.toNat) else none

def digitsVal (cs : List Char) : Option Nat :=
  if cs = [] then none
  else
    cs.foldl
      (fun acc c =>
        match acc, charDigit c with
        | some n, some d => some (n * 10 + d)
        | _, _ => none)
      (some 0)

def parseSemver (s : String) : Option (Nat × Nat × Nat) :=
  let cs :=
    match s.data with
    | 'v' :: rest => rest
    | l => l
  match (splitDots cs).map digitsVal with
  | [some a, some b, some c] => some (a, b, c)
  | _ => none

def tripleLe (x y : Nat × Nat × Nat) : Bool :=
  decide (x.1 < y.1 ∨ (x.1 = y.1 ∧ (x.2.1 < y.2.1 ∨ (x.2.1 = y.2.1 ∧ x.2.2 ≤ y.2.2))))

def semverLe (a b : String) : Bool :=
  match parseSemver a, parseSemver b with
  | some x, some y => tripleLe x y
  | some _, none => true
  | none, some _ => false
  | none, none => decide (a ≤ b)

theorem tripleLe_refl (x : Nat × Nat × Nat) : tripleLe x x = true := by
  simp [tripleLe]

theorem tripleLe_total (x y : Nat × Nat × Nat) :
    tripleLe x y = true ∨ tripleLe y x = true := by
  simp only [tripleLe, decide_eq_true_eq]
  omega

theorem tripleLe_trans {x y z : Nat × Nat × Nat}
    (h₁ : tripleLe x y = true) (h₂ : tripleLe y z = true) : tripleLe x z = true := by
  simp only [tripleLe, decide_eq_true_eq] at *
  omega

theorem semverLe_refl (a : String) : semverLe a a = true := by
  unfold semverLe
  cases h : parseSemver a with
  | none => simp
  | some x => simpa using tripleLe_refl x

theorem semverLe_total (a b : String) :
    semverLe a b = true ∨ semverLe b a = true := by
  unfold semverLe
  cases ha : parseSemver a with
  | none =>
    cases hb : parseSemver b with
    | none => simpa using le_total a b
    | some y => simp
  | some x =>
    cases hb : parseSemver b with
    | none => simp
    | some y => simpa using tripleLe_total x y

theorem semverLe_trans {a b c : String}
    (h₁ : semverLe a b = true) (h₂ : semverLe b c = true) : semverLe a c = true := by
  unfold semverLe at *
  cases ha : parseSemver a <;> cases hb : parseSemver b <;> cases hc : parseSemver c <;>
    simp_all
  · exact le_trans h₁ h₂
  · exact tripleLe_trans h₁ h₂

instance : IsTotal String (fun a b => semverLe a b = true) := ⟨semverLe_total⟩

instance : IsTrans String (fun a b => semverLe a b = true) :=
  ⟨fun _ _ _ h₁ h₂ => semverLe_trans h₁ h₂⟩

instance semverLeDecRel : DecidableRel (fun a b => semverLe a b = true) :=
  fun _ _ => inferInstanceAs (Decidable _)

/-- Sort version strings in ascending semantic-version order. -/
def sortVersions (l : List String) : List String :=
  List.insertionSort (fun a b => semverLe a b = true) l

/-- Last element of a list, or the supplied default on the empty list. -/
def lastOr (d : String) : List String → String
  | [] => d
  | [x] => x
  | _ :: y :: t => lastOr d (y :: t)

theorem lastOr_mem (d : String) : ∀ (l : List String), l ≠ [] → lastOr d l ∈ l
  | [x], _ => by simp [lastOr]
  | x :: y :: t, _ => by
    have ih := lastOr_mem d (y :: t) (by simp)
    simp only [lastOr]
    exact List.mem_cons_of_mem x ih

theorem sorted_lastOr_ub (l : List String)
    (hs : List.Sorted (fun a b => semverLe a b = true) l) :
    ∀ x ∈ l, semverLe x (lastOr "" l) = true := by
  induction l with
  | nil => intro x hx; cases hx
  | cons a t ih =>
    intro x hx
    rw [List.sorted_cons] at hs
    cases t with
    | nil =>
      simp only [List.mem_singleton] at hx
      subst hx
      simp only [lastOr]
      exact semverLe_refl _
    | cons b t' =>
      rcases List.mem_cons.mp hx with h | h
      · subst h
        have hmem : lastOr "" (b :: t') ∈ b :: t' := lastOr_mem "" _ (by simp)
        simpa [lastOr] using hs.1 _ hmem
      · simpa [lastOr] using ih hs.2 x h

theorem sortVersions_upperBound (l : List String) :
    ∀ x ∈ sortVersions l, semverLe x (lastOr "" (sortVersions l)) = true :=
  fun x hx => sorted_lastOr_ub _ (List.sorted_insertionSort _ l) x hx

theorem mem_sortVersions {l : List String} {x : String} :
    x ∈ sortVersions l ↔ x ∈ l :=
  (List.perm_insertionSort _ l).mem_iff

theorem sortVersions_ne_nil {l : List String} (h : l ≠ []) : sortVersions l ≠ [] := by
  intro hnil
  exact h ((List.perm_insertionSort (fun a b => semverLe a b = true) l).symm.trans
    (hnil ▸ List.Perm.refl _)).eq_nil

/-! ## Inventory schema and row model

`PluginBinaryRow` is translated from the `PluginBinaries` table schema
in `sqlite_inventory_test.go` (one row per unique deployable artifact,
primary key (PluginName, Target, Version, OS, Architecture)). -/

structure PluginBinaryRow where
  pluginName : String
  target : String
  recommendedVersion : String
  version : String
  hidden : Bool
  description : String
  publisher : String
  vendor : String
  os : String
  architecture : String
  digest : String
  uri : String
deriving DecidableEq

/-- One platform artifact of one version, as exposed in an entry's
`Artifacts` map (translated from the fields checked by the tests:
OS, Arch, Digest, Image). -/
structure PluginArtifactInfo where
  os : String
  arch : String
  digest : String
  image : String
deriving DecidableEq

/-- Translated from `PluginInventoryEntry` in `plugin_inventory.go`; the
`Artifacts` map is modelled as an association list keyed by version. -/
structure PluginInventoryEntry where
  name : String
  target : String
  description : String
  publisher : String
  vendor : String
  recommendedVersion : String
  availableVersions : List String
  artifacts : List (String × List PluginArtifactInfo)
deriving DecidableEq

/-! ## Query/filter engine

The SQLite query engine itself is not among the provided sources; the
definitions in this section are modelled from the spec (§4.2 and §8)
with the concrete behaviour pinned by `sqlite_inventory_test.go`. -/

/-- Modelled from the spec and the tests: the query engine normalizes
stored target strings — "k8s" becomes "kubernetes", "tmc" becomes
"mission-control", "global" becomes the empty target. -/
def targetFromDB (t : String) : String :=
  if t = "k8s" then "kubernetes"
  else if t = "tmc" then "mission-control"
  else if t = "global" then ""
  else t

/-- The (PluginName, Target) grouping key of a row. -/
def rowKeyNT (r : PluginBinaryRow) : String × String :=
  (r.pluginName, r.target)

/-- The distinct (PluginName, Target) pairs among `rows`. -/
def keysOf (rows : List PluginBinaryRow) : List (String × String) :=
  (rows.map rowKeyNT).dedup

/-- The rows contributing to the entry for grouping key `k`. -/
def groupOf (rows : List PluginBinaryRow) (k : String × String) : List PluginBinaryRow :=
  rows.filter (fun r => decide (rowKeyNT r = k))

/-- Modelled from the spec: the recommended version of a group of rows —
the stored non-empty `RecommendedVersion` if one exists, otherwise the
maximum version of the group in semantic-version order. -/
def recoOfGroup (g : List PluginBinaryRow) : String :=
  match g.find? (fun r => decide (r.recommendedVersion ≠ "")) with
  | some r => r.recommendedVersion
  | none => lastOr "" (sortVersions ((g.map (·.version)).dedup))

/-- Modelled from the spec: an artifact's `Image` is the row's `URI`
resolved against the repository root supplied when the store was
opened. -/
def artifactOf (root : String) (r : PluginBinaryRow) : PluginArtifactInfo :=
  { os := r.os
    arch := r.architecture
    digest := r.digest
    image := root ++ "/" ++ r.uri }

/-- Modelled from the spec (§3, §4.2): aggregate one group of rows
sharing a (PluginName, Target) key into a `PluginInventoryEntry`. -/
def entryOfGroup (root : String) (k : String × String) (g : List PluginBinaryRow) :
    PluginInventoryEntry :=
  let versions := sortVersions ((g.map (·.version)).dedup)
  { name := k.1
    target := targetFromDB k.2
    description := lastOr "" (g.map (·.description))
    publisher := lastOr "" (g.map (·.publisher))
    vendor := lastOr "" (g.map (·.vendor))
    recommendedVersion := recoOfGroup g
    availableVersions := versions
    artifacts :=
      versions.map (fun v => (v, (g.filter (fun r => decide (r.version = v))).map (artifactOf root))) }

/-- Modelled from the spec: one aggregated entry per distinct
(PluginName, Target) pair across `rows`. -/
def entriesFromRows (root : String) (rows : List PluginBinaryRow) :
    List PluginInventoryEntry :=
  (keysOf rows).map (fun k => entryOfGroup root k (groupOf rows k))

/-- Modelled from the spec (§4.1): the state of the backing SQLite
store — either the `PluginBinaries` table was never created (which is
also what an absent backing file degenerates to), or the table exists
and holds `rows`. -/
inductive StoreState where
  | unreadable
  | ready (rows : List PluginBinaryRow)
deriving DecidableEq

/-- The SQLite-backed inventory: the repository root used to resolve
artifact URIs, plus the store state. -/
structure SQLiteInventory where
  imageRoot : String
  state : StoreState
deriving DecidableEq

/-- The error surfaced for a store whose table was never created; the
tests pin the substring "unable to setup DB". -/
def setupErrorMsg : String :=
  "unable to setup DB query: no such table: PluginBinaries"

/-- Modelled from the spec (§4.2): `GetAllPlugins`. -/
def GetAllPlugins (inv : SQLiteInventory) : Except String (List PluginInventoryEntry) :=
  match inv.state with
  | .unreadable => .error setupErrorMsg
  | .ready rows => .ok (entriesFromRows inv.imageRoot rows)

/-- Translated from `PluginInventoryFilter` (spec §3): every field is
optional; an empty field matches all values of that dimension. -/
structure PluginInventoryFilter where
  name : String := ""
  target : String := ""
  version : String := ""
  os : String := ""
  arch : String := ""
  publisher : String := ""
  vendor : String := ""
deriving DecidableEq

/-- The reserved "resolve recommended" sentinel accepted by the
`Version` filter field (`cli.VersionLatest`). -/
def VersionLatest : String := "latest"

/-- The completely empty/unset filter. -/
def emptyFilter : PluginInventoryFilter := {}

/-- Does `r` pass the name and target dimensions of `f`? -/
def matchesNameTarget (f : PluginInventoryFilter) (r : PluginBinaryRow) : Bool :=
  (decide (f.name = "") || decide (r.pluginName = f.name)) &&
  (decide (f.target = "") || decide (targetFromDB r.target = f.target))

/-- Does `r` pass every dimension of `f`? (With `f.version` here being
a literal version; the sentinel is resolved before this test.) -/
def rowMatches (f : PluginInventoryFilter) (r : PluginBinaryRow) : Bool :=
  matchesNameTarget f r &&
  (decide (f.version = "") || decide (r.version = f.version)) &&
  (decide (f.os = "") || decide (r.os = f.os)) &&
  (decide (f.arch = "") || decide (r.architecture = f.arch)) &&
  (decide (f.publisher = "") || decide (r.publisher = f.publisher)) &&
  (decide (f.vendor = "") || decide (r.vendor = f.vendor))

/-- Modelled from the spec (§4.2): the unfiltered recommended version
for the plugin/target matched by `f` — no other filter dimension is
applied. -/
def recommendedForFilter (rows : List PluginBinaryRow) (f : PluginInventoryFilter) : String :=
  recoOfGroup (rows.filter (matchesNameTarget f))

/-- Modelled from the spec (§4.2): `GetPlugins` applies the filter to
rows before aggregation; a `Version` equal to the sentinel is first
resolved to the recommended version of the matching plugin/target. -/
def GetPlugins (inv : SQLiteInventory) (f : PluginInventoryFilter) :
    Except String (List PluginInventoryEntry) :=
  match inv.state with
  | .unreadable => .error setupErrorMsg
  | .ready rows =>
    let v := if f.version = VersionLatest then recommendedForFilter rows f else f.version
    .ok (entriesFromRows inv.imageRoot (rows.filter (rowMatches { f with version := v })))

/-- The entry list of a successful query result (empty on error). -/
def resOk (x : Except String (List PluginInventoryEntry)) : List PluginInventoryEntry :=
  match x with
  | .ok l => l
  | .error _ => []

/-! ## Structural lemmas about aggregation -/

theorem mem_groupOf {rows : List PluginBinaryRow} {k : String × String}
    {r : PluginBinaryRow} : r ∈ groupOf rows k ↔ r ∈ rows ∧ rowKeyNT r = k := by
  simp [groupOf, List.mem_filter]

theorem groupOf_ne_nil {rows : List PluginBinaryRow} {k : String × String}
    (hk : k ∈ keysOf rows) : groupOf rows k ≠ [] := by
  obtain ⟨r, hr, hkey⟩ := List.mem_map.mp (List.mem_dedup.mp hk)
  exact List.ne_nil_of_mem (mem_groupOf.mpr ⟨hr, hkey⟩)

theorem entriesFromRows_group (root : String) (rows : List PluginBinaryRow)
    (e : PluginInventoryEntry) (he : e ∈ entriesFromRows root rows) :
    ∃ g : List PluginBinaryRow, g ≠ [] ∧
      (∀ r ∈ g, r ∈ rows ∧ r.pluginName = e.name) ∧
      e.recommendedVersion = recoOfGroup g ∧
      e.availableVersions = sortVersions ((g.map (·.version)).dedup) ∧
      e.artifacts.map Prod.fst = e.availableVersions := by
  obtain ⟨k, hk, hke⟩ := List.mem_map.mp he
  refine ⟨groupOf rows k, groupOf_ne_nil hk, ?_, ?_, ?_, ?_⟩
  · intro r hr
    have h := mem_groupOf.mp hr
    refine ⟨h.1, ?_⟩
    rw [← hke]
    show r.pluginName = k.1
    rw [← h.2]
    rfl
  · rw [← hke]; rfl
  · rw [← hke]; rfl
  · rw [← hke]
    simp [entryOfGroup, List.map_map, Function.comp_def]

theorem recoOfGroup_of_nonempty {g : List PluginBinaryRow}
    (h : ∃ r ∈ g, r.recommendedVersion ≠ "") :
    ∃ r ∈ g, r.recommendedVersion ≠ "" ∧ recoOfGroup g = r.recommendedVersion := by
  cases hf : g.find? (fun r => decide (r.recommendedVersion ≠ "")) with
  | none =>
    exfalso
    obtain ⟨r, hr, hne⟩ := h
    have := List.find?_eq_none.mp hf r hr
    simp only [decide_eq_true_eq] at this
    exact this hne
  | some r =>
    refine ⟨r, List.mem_of_find?_eq_some hf, ?_, ?_⟩
    · simpa using List.find?_some hf
    · simp only [recoOfGroup, hf]

theorem recoOfGroup_of_empty {g : List PluginBinaryRow} (hne : g ≠ [])
    (h : ∀ r ∈ g, r.recommendedVersion = "") :
    recoOfGroup g ∈ sortVersions ((g.map (·.version)).dedup) ∧
    ∀ v ∈ sortVersions ((g.map (·.version)).dedup),
      semverLe v (recoOfGroup g) = true := by
  have hf : g.find? (fun r => decide (r.recommendedVersion ≠ "")) = none := by
    apply List.find?_eq_none.mpr
    intro r hr
    simp [h r hr]
  have hvne : (g.map (·.version)).dedup ≠ [] := by
    intro h0
    exact hne (List.map_eq_nil_iff.mp ((List.dedup_eq_nil _).mp h0))
  have hsne := sortVersions_ne_nil hvne
  constructor
  · simp only [recoOfGroup, hf]
    exact lastOr_mem _ _ hsne
  · intro v hv
    simp only [recoOfGroup, hf]
    exact sortVersions_upperBound _ v hv

/-- C1: for every entry returned by `GetAllPlugins` or `GetPlugins`
there is a non-empty set of contributing rows such that: if some
contributing row stores a non-empty `RecommendedVersion`, the entry's
`RecommendedVersion` equals a stored non-empty value (hence the common
value when the contributing rows agree, even when it is not the maximum
available version); otherwise it equals the maximum element of
`AvailableVersions` in semantic-version order. -/
theorem claim1_recommended_version_rule (root : String) (rows : List PluginBinaryRow)
    (f : PluginInventoryFilter) (e : PluginInventoryEntry)
    (he : e ∈ resOk (GetAllPlugins ⟨root, .ready rows⟩)
        ∨ e ∈ resOk (GetPlugins ⟨root, .ready rows⟩ f)) :
    ∃ g : List PluginBinaryRow, g ≠ [] ∧
      (∀ r ∈ g, r ∈ rows ∧ r.pluginName = e.name) ∧
      ((∃ r ∈ g, r.recommendedVersion ≠ "") →
        (∃ r ∈ g, r.recommendedVersion ≠ "" ∧ e.recommendedVersion = r.recommendedVersion) ∧
        ∀ v : String, (∀ r ∈ g, r.recommendedVersion ≠ "" → r.recommendedVersion = v) →
          e.recommendedVersion = v) ∧
      ((∀ r ∈ g, r.recommendedVersion = "") →
        e.recommendedVersion ∈ e.availableVersions ∧
        ∀ v ∈ e.availableVersions, semverLe v e.recommendedVersion = true) := by
  have hmem : ∃ rows' : List PluginBinaryRow,
      (∀ r ∈ rows', r ∈ rows) ∧ e ∈ entriesFromRows root rows' := by
    rcases he with h | h
    · exact ⟨rows, fun _ hr => hr, by simpa [GetAllPlugins, resOk] using h⟩
    · refine ⟨rows.filter (rowMatches { f with version :=
          if f.version = VersionLatest then recommendedForFilter rows f else f.version }),
        fun _ hr => List.mem_of_mem_filter hr, ?_⟩
      simpa [GetPlugins, resOk] using h
  obtain ⟨rows', hsub, he'⟩ := hmem
  obtain ⟨g, hgne, hgmem, hrv, hav, -⟩ := entriesFromRows_group root rows' e he'
  refine ⟨g, hgne, fun r hr => ⟨hsub r (hgmem r hr).1, (hgmem r hr).2⟩, ?_, ?_⟩
  · intro hex
    obtain ⟨r₀, hr₀, hne₀, heq⟩ := recoOfGroup_of_nonempty hex
    constructor
    · exact ⟨r₀, hr₀, hne₀, by rw [hrv, heq]⟩
    · intro v hv
      rw [hrv, heq]
      exact hv r₀ hr₀ hne₀
  · intro hall
    rw [hrv, hav]
    exact recoOfGroup_of_empty hgne hall

/-- C7: on a store whose table exists but holds zero rows,
`GetAllPlugins` returns an empty sequence of entries and no error. -/
theorem claim7_empty_table_empty_result (root : String) :
    GetAllPlugins ⟨root, .ready []⟩ = .ok [] := rfl

/-- C6: on a store whose backing file exists but whose table was never
created, `GetAllPlugins` returns an error whose message indicates the
store could not be set up. -/
theorem claim6_uninit_store_error (root : String) :
    GetAllPlugins ⟨root, .unreadable⟩ = .error setupErrorMsg ∧
    "unable to setup DB".data <:+: setupErrorMsg.data :=
  ⟨rfl, by decide⟩

/-- C8: `GetPlugins` with a completely empty/unset filter returns
exactly the same result as `GetAllPlugins`, on every store. -/
theorem claim8_empty_filter_equiv (inv : SQLiteInventory) :
    GetPlugins inv emptyFilter = GetAllPlugins inv := by
  cases inv with
  | mk root st =>
    cases st with
    | unreadable => rfl
    | ready rows =>
      simp only [GetPlugins, GetAllPlugins]
      have h1 : (if emptyFilter.version = VersionLatest
          then recommendedForFilter rows emptyFilter else emptyFilter.version) = "" := by
        rw [if_neg (by decide)]
        rfl
      rw [h1]
      have h2 : rows.filter (rowMatches { emptyFilter with version := "" }) = rows := by
        apply List.filter_eq_self.mpr
        intro r _
        simp [rowMatches, matchesNameTarget, emptyFilter]
      rw [h2]

theorem exists_entry_for_row (root : String) (rows : List PluginBinaryRow)
    (r : PluginBinaryRow) (hr : r ∈ rows) :
    ∃ e ∈ entriesFromRows root rows,
      e.name = r.pluginName ∧ e.target = targetFromDB r.target := by
  have hk : rowKeyNT r ∈ keysOf rows :=
    List.mem_dedup.mpr (List.mem_map.mpr ⟨r, hr, rfl⟩)
  exact ⟨entryOfGroup root (rowKeyNT r) (groupOf rows (rowKeyNT r)),
    List.mem_map.mpr ⟨_, hk, rfl⟩, rfl, rfl⟩

/-- C10: the query engine normalizes stored `Target` strings — a row
stored with target "k8s" yields an entry whose target is "kubernetes",
"tmc" yields "mission-control", and "global" yields the empty string. -/
theorem claim10_target_normalization (root : String) (rows : List PluginBinaryRow)
    (r : PluginBinaryRow) (hr : r ∈ rows) :
    (r.target = "k8s" → ∃ e ∈ resOk (GetAllPlugins ⟨root, .ready rows⟩),
      e.name = r.pluginName ∧ e.target = "kubernetes") ∧
    (r.target = "tmc" → ∃ e ∈ resOk (GetAllPlugins ⟨root, .ready rows⟩),
      e.name = r.pluginName ∧ e.target = "mission-control") ∧
    (r.target = "global" → ∃ e ∈ resOk (GetAllPlugins ⟨root, .ready rows⟩),
      e.name = r.pluginName ∧ e.target = "") := by
  obtain ⟨e, he, h1, h2⟩ := exists_entry_for_row root rows r hr
  have hres : e ∈ resOk (GetAllPlugins ⟨root, .ready rows⟩) := by
    simpa [GetAllPlugins, resOk] using he
  refine ⟨?_, ?_, ?_⟩ <;> intro ht <;>
    exact ⟨e, hres, h1, by rw [h2, ht]; decide⟩

theorem rowMatches_version {f : PluginInventoryFilter} {r : PluginBinaryRow}
    (h : rowMatches f r = true) (hv : f.version ≠ "") : r.version = f.version := by
  simp only [rowMatches, Bool.and_eq_true, Bool.or_eq_true, decide_eq_true_eq] at h
  rcases h with ⟨⟨⟨⟨⟨-, hver⟩, -⟩, -⟩, -⟩, -⟩
  exact hver.resolve_left hv

theorem dedup_const {l : List String} {a : String} (hne : l ≠ [])
    (h : ∀ x ∈ l, x = a) : l.dedup = [a] := by
  induction l with
  | nil => exact absurd rfl hne
  | cons x t ih =>
    cases t with
    | nil =>
      rw [h x (by simp)]
      simp
    | cons y t' =>
      have hmem : x ∈ y :: t' := by
        rw [h x (by simp), ← h y (by simp)]
        exact List.mem_cons_self y t'
      rw [List.dedup_cons_of_mem hmem]
      exact ih (by simp) (fun z hz => h z (List.mem_cons_of_mem x hz))

/-- C2: when `filter.Version` is the "resolve recommended" sentinel and
the resolved recommended version is an actual version string,
`GetPlugins` first computes the recommended version of the matching
plugin/target with no other filter dimension applied, and then returns
exactly the aggregation of the rows at that version that satisfy the
remaining dimensions: every returned entry carries only the resolved
version, and when no row survives the combined restriction the result
is the empty sequence. -/
theorem claim2_latest_sentinel (root : String) (rows : List PluginBinaryRow)
    (f : PluginInventoryFilter) (hf : f.version = VersionLatest)
    (hrv : recommendedForFilter rows f ≠ "") :
    GetPlugins ⟨root, .ready rows⟩ f =
      .ok (entriesFromRows root
        (rows.filter (rowMatches { f with version := recommendedForFilter rows f }))) ∧
    (∀ e ∈ resOk (GetPlugins ⟨root, .ready rows⟩ f),
      e.availableVersions = [recommendedForFilter rows f] ∧
      e.artifacts.map Prod.fst = [recommendedForFilter rows f]) ∧
    (rows.filter (rowMatches { f with version := recommendedForFilter rows f }) = [] →
      GetPlugins ⟨root, .ready rows⟩ f = .ok []) := by
  have h0 : GetPlugins ⟨root, .ready rows⟩ f =
      .ok (entriesFromRows root
        (rows.filter (rowMatches { f with version := recommendedForFilter rows f }))) := by
    simp only [GetPlugins]
    rw [if_pos hf]
  refine ⟨h0, ?_, ?_⟩
  · intro e he
    rw [h0] at he
    simp only [resOk] at he
    obtain ⟨g, hgne, hgmem, -, hav, hart⟩ := entriesFromRows_group _ _ _ he
    have hver : ∀ r ∈ g, r.version = recommendedForFilter rows f := by
      intro r hr
      exact rowMatches_version (List.of_mem_filter (hgmem r hr).1) hrv
    have hvers : (g.map (·.version)).dedup = [recommendedForFilter rows f] := by
      apply dedup_const
      · intro h0'
        exact hgne (List.map_eq_nil_iff.mp h0')
      · intro v hv
        obtain ⟨r, hr, rfl⟩ := List.mem_map.mp hv
        exact hver r hr
    have hone : e.availableVersions = [recommendedForFilter rows f] := by
      rw [hav, hvers]
      rfl
    exact ⟨hone, by rw [hart, hone]⟩
  · intro hnil
    rw [h0, hnil]
    rfl

/-! ## Metadata merge engine

The merge engine (`MergeInventoryMetadataDatabase`) is not among the
provided sources; it is modelled from the spec (§4.3): a row-level
union keyed by the primary key, with the incoming/remote row winning a
key conflict, and a nonexistent incoming store treated as a no-op
success. -/

/-- The primary key of a row: (PluginName, Target, Version, OS,
Architecture). -/
def rowKey (r : PluginBinaryRow) : String × String × String × String × String :=
  (r.pluginName, r.target, r.version, r.os, r.architecture)

/-- Does some row of `s` carry the same primary key as `r`? -/
def conflictsWith (s : List PluginBinaryRow) (r : PluginBinaryRow) : Bool :=
  s.any (fun x => decide (rowKey x = rowKey r))

/-- Modelled from the spec: the row-level union of a local store and an
incoming store, preferring the incoming row on a key conflict. -/
def mergeRows (localRows incoming : List PluginBinaryRow) : List PluginBinaryRow :=
  localRows.filter (fun r => !(conflictsWith incoming r)) ++ incoming

/-- Modelled from the spec: `MergeInventoryMetadataDatabase` mutates
the local store into the union of both stores; a nonexistent incoming
store (`none`) leaves the local store unchanged and succeeds. -/
def MergeInventoryMetadataDatabase (localRows : List PluginBinaryRow)
    (incoming : Option (List PluginBinaryRow)) : List PluginBinaryRow :=
  match incoming with
  | none => localRows
  | some inc => mergeRows localRows inc

theorem filter_not_conflict_self (s : List PluginBinaryRow) :
    s.filter (fun r => !(conflictsWith s r)) = [] := by
  rw [List.filter_eq_nil_iff]
  intro r hr
  have h : conflictsWith s r = true := by
    simp only [conflictsWith, List.any_eq_true, decide_eq_true_eq]
    exact ⟨r, hr, rfl⟩
  simp [h]

/-- C4: the metadata merge is idempotent — merging the same incoming
store a second time into the result of the first merge yields the same
rows as the single merge. -/
theorem claim4_merge_idempotent (localRows incoming : List PluginBinaryRow) :
    MergeInventoryMetadataDatabase
        (MergeInventoryMetadataDatabase localRows (some incoming)) (some incoming) =
      MergeInventoryMetadataDatabase localRows (some incoming) := by
  simp only [MergeInventoryMetadataDatabase, mergeRows]
  rw [List.filter_append, List.filter_filter, filter_not_conflict_self,
    List.append_nil]
  congr 1
  apply List.filter_congr
  intro r _
  rw [Bool.and_self]

/-! ## Air-gapped migration orchestrator

Embedded from the source of package `airgapped`
(`UploadPluginBundle`, `uploadImage`, `mergePluginInventoryMetadata`).
External collaborators (temp-dir creation, tar extraction, manifest
reading/parsing, URL joining, and the image-transfer operations) are
supplied as an environment of call results; the function threads an
explicit trace of the image-transfer operations it invokes. -/

/-- One entry of `ImagesToCopy` in the migration manifest. -/
structure ImageCopyInfo where
  sourceTarFilePath : String
  relativeImagePath : String
deriving DecidableEq

/-- The `InventoryMetadataImage` section of the migration manifest. -/
structure InventoryMetadataImageInfo where
  sourceFilePath : String
  relativeImagePathWithTag : String
deriving DecidableEq

/-- The plugin migration manifest. -/
structure PluginMigrationManifest where
  imagesToCopy : List ImageCopyInfo
  inventoryMetadataImage : InventoryMetadataImageInfo
  relativeInventoryImagePathWithTag : String
deriving DecidableEq

/-- An invocation of one of the image-transfer collaborator
operations. -/
inductive ImageOp where
  | copyImageFromTar (sourceTar destination : String)
  | pushImage (destination : String) (files : List String)
  | downloadImageAndSaveFilesToDir (source dir : String)
deriving DecidableEq

/-- Modelled from the spec: the fixed bundle subdirectory inside the
extracted temporary directory (its concrete name is not in the
provided sources). -/
def PluginBundleDirName : String := "plugin_bundle"

/-- Results of the external collaborator calls made by
`UploadPluginBundle`, fixed up front so the orchestrator is a pure
function of them. -/
structure UploadEnv where
  tempDirOk : Bool
  tempDir : String
  unTarOk : Bool
  readManifestOk : Bool
  parsedManifest : Option PluginMigrationManifest
  joinURL : String → String → Except String String
  copyImageFromTar : String → String → Except String Unit
  pushImage : String → List String → Except String Unit
  downloadImage : String → String → Except String Unit
  mergeDownloadedMetadata : Except String Unit

/-- From `uploadImage`: the progress message printed before an upload —
`fmt.Sprintf("[%d/%d] uploading image %q", totalImages, imagesUploaded,
repoImagePath)`. -/
def uploadImageUploadingMsg (totalImages imagesUploaded : Nat) (repoImagePath : String) :
    String :=
  "[" ++ toString totalImages ++ "/" ++ toString imagesUploaded ++
    "] uploading image \"" ++ repoImagePath ++ "\""

/-- From `uploadImage`: the failure message —
`fmt.Sprintf("[%d/%d] error while uploading image %q", totalImages,
imagesUploaded, repoImagePath)`. -/
def uploadImageErrorMsg (totalImages imagesUploaded : Nat) (repoImagePath : String) :
    String :=
  "[" ++ toString totalImages ++ "/" ++ toString imagesUploaded ++
    "] error while uploading image \"" ++ repoImagePath ++ "\""

/-- From `uploadImage`: the success message —
`fmt.Sprintf("[%d/%d] uploaded image %q", totalImages,
imagesUploaded+1, repoImagePath)`. -/
def uploadImageUploadedMsg (totalImages imagesUploaded : Nat) (repoImagePath : String) :
    String :=
  "[" ++ toString totalImages ++ "/" ++ toString (imagesUploaded + 1) ++
    "] uploaded image \"" ++ repoImagePath ++ "\""

/-- The sequential upload loop of `UploadPluginBundle`: for each
`ImagesToCopy` entry, join the destination repo with the relative
path, then `CopyImageFromTar` the bundled tar to it; the first failure
aborts.  Returns the overall result and the trace of transfer calls. -/
def uploadImagesLoop (env : UploadEnv) (bundleDir destRepo : String)
    (totalImages : Nat) :
    Nat → List ImageCopyInfo → Except String Unit × List ImageOp
  | _, [] => (.ok (), [])
  | imagesUploaded, ic :: rest =>
    match env.joinURL destRepo ic.relativeImagePath with
    | .error e => (.error ("error while constructing the repo image path: " ++ e), [])
    | .ok repoImagePath =>
      let imageTar := bundleDir ++ "/" ++ ic.sourceTarFilePath
      match env.copyImageFromTar imageTar repoImagePath with
      | .error e =>
        (.error (uploadImageErrorMsg totalImages imagesUploaded repoImagePath ++ ": " ++ e),
         [ImageOp.copyImageFromTar imageTar repoImagePath])
      | .ok _ =>
        let p := uploadImagesLoop env bundleDir destRepo totalImages (imagesUploaded + 1) rest
        (p.1, ImageOp.copyImageFromTar imageTar repoImagePath :: p.2)

/-- Embedded from `UploadPluginBundle` in package `airgapped`: create a
temp dir, extract the bundle, read and parse the migration manifest,
upload each image sequentially, then merge and republish the inventory
metadata image. -/
def UploadPluginBundle (env : UploadEnv) (destRepo : String) :
    Except String Unit × List ImageOp :=
  match env.tempDirOk with
  | false => (.error "unable to create temp directory", [])
  | true =>
  match env.unTarOk with
  | false => (.error "unable to extract provided file", [])
  | true =>
  let pluginBundleDir := env.tempDir ++ "/" ++ PluginBundleDirName
  match env.readManifestOk with
  | false => (.error "error while reading plugin migration manifest", [])
  | true =>
  match env.parsedManifest with
  | none => (.error "error while parsing plugin migration manifest", [])
  | some manifest =>
  match uploadImagesLoop env pluginBundleDir destRepo
      manifest.imagesToCopy.length 0 manifest.imagesToCopy with
  | (.error e, tr) => (.error e, tr)
  | (.ok _, tr) =>
    let dbFile := pluginBundleDir ++ "/" ++ manifest.inventoryMetadataImage.sourceFilePath
    match env.joinURL destRepo manifest.inventoryMetadataImage.relativeImagePathWithTag with
    | .error e =>
      (.error ("error while constructing the plugin inventory metadata image with tag: " ++ e),
       tr)
    | .ok metaImg =>
      let metaDir := env.tempDir ++ "/inventory-metadata"
      let tr := tr ++ [ImageOp.downloadImageAndSaveFilesToDir metaImg metaDir]
      let mergeStep : Except String Unit :=
        match env.downloadImage metaImg metaDir with
        | .ok _ => env.mergeDownloadedMetadata
        | .error _ => .ok ()
      match mergeStep with
      | .error e =>
        (.error ("error while merging the plugin inventory metadata database before uploading metadata image: " ++ e),
         tr)
      | .ok _ =>
        let tr := tr ++ [ImageOp.pushImage metaImg [dbFile]]
        match env.pushImage metaImg [dbFile] with
        | .error e => (.error ("error while uploading image: " ++ e), tr)
        | .ok _ =>
          match env.joinURL destRepo manifest.relativeInventoryImagePathWithTag with
          | .error e => (.error ("error while constructing the image URL: " ++ e), tr)
          | .ok _ => (.ok (), tr)

/-- C5: when extraction fails, or the manifest cannot be read or
parsed, `UploadPluginBundle` returns an error and no image-transfer
operation (`CopyImageFromTar`, `PushImage`,
`DownloadImageAndSaveFilesToDir`) has been invoked. -/
theorem claim5_no_transfer_before_manifest (env : UploadEnv) (destRepo : String)
    (h : env.unTarOk = false ∨ env.readManifestOk = false ∨ env.parsedManifest = none) :
    (∃ e, (UploadPluginBundle env destRepo).1 = .error e) ∧
    (UploadPluginBundle env destRepo).2 = [] := by
  cases htd : env.tempDirOk with
  | false =>
    simp [UploadPluginBundle, htd]
  | true =>
    rcases h with h | h | h
    · simp [UploadPluginBundle, htd, h]
    · cases hu : env.unTarOk with
      | false => simp [UploadPluginBundle, htd, hu]
      | true => simp [UploadPluginBundle, htd, hu, h]
    · cases hu : env.unTarOk with
      | false => simp [UploadPluginBundle, htd, hu]
      | true =>
        cases hm : env.readManifestOk with
        | false => simp [UploadPluginBundle, htd, hu, hm]
        | true => simp [UploadPluginBundle, htd, hu, hm, h]

/-! ## Republish-metadata step (C3) -/

/-- The possible failure causes of `DownloadImageAndSaveFilesToDir`:
the image does not exist at the source address, or any other failure
(network, authentication, ...).  The type distinguishes the two so
that we can state whether the orchestrator does. -/
inductive DownloadErr where
  | imageNotFound
  | other (msg : String)
deriving DecidableEq

/-- Embedded from `mergePluginInventoryMetadata` in package
`airgapped`: download the previously published metadata image; when
the download call returns no error, merge it into the bundled metadata
store (propagating a merge failure); when the download call returns
any error, skip the merge and succeed.  The returned Bool records
whether the merge was performed. -/
def mergePluginInventoryMetadata (downloadResult : Except DownloadErr Unit)
    (mergeResult : Except String Unit) : Except String Bool :=
  match downloadResult with
  | .ok _ =>
    match mergeResult with
    | .error e => .error e
    | .ok _ => .ok true
  | .error _ => .ok false

/-- C3 counterexample: a download failure that is *not* the
image-does-not-exist case is silently swallowed — the step succeeds
with the merge skipped, with exactly the same observable outcome as
the absence case, so the absence case is not distinguishable from
other download failures and those other failures are not surfaced. -/
theorem claim3_counterexample :
    mergePluginInventoryMetadata (.error (.other "network failure")) (.ok ()) = .ok false ∧
    mergePluginInventoryMetadata (.error .imageNotFound) (.ok ()) = .ok false :=
  ⟨rfl, rfl⟩

/-- C3 (amended): every failure of `DownloadImageAndSaveFilesToDir` is
non-fatal in the republish-metadata step — the merge is skipped and
the run continues — and the code does not distinguish the
image-not-found case from other download failures; only a failure of
the merge itself (after a successful download) is propagated. -/
theorem claim3_amended_download_failures_skipped
    (d : DownloadErr) (m : Except String Unit) :
    mergePluginInventoryMetadata (.error d) m = .ok false ∧
    (∀ e : String, mergePluginInventoryMetadata (.ok ()) (.error e) = .error e) :=
  ⟨rfl, fun _ => rfl⟩

/-- C9: the progress counter is not `[i/N]`.  For the first upload
(ordinal position i = 1) of a run with N = 2 images, `uploadImage` is
called with `imagesUploaded = 0` and prints `[2/0]` before the upload
and on failure, and `[2/1]` on success — the arguments are
`(totalImages, imagesUploaded)`, i.e. `[N/i-1]` (before/failure) and
`[N/i]` (success), never `[i/N]`. -/
theorem claim9_counter_not_i_of_n :
    uploadImageUploadingMsg 2 0 "repo/img1" = "[2/0] uploading image \"repo/img1\"" ∧
    uploadImageErrorMsg 2 0 "repo/img1" = "[2/0] error while uploading image \"repo/img1\"" ∧
    uploadImageUploadedMsg 2 0 "repo/img1" = "[2/1] uploaded image \"repo/img1\"" ∧
    ¬ ("[1/2]".data <:+: (uploadImageUploadingMsg 2 0 "repo/img1").data) ∧
    ¬ ("[1/2]".data <:+: (uploadImageUploadedMsg 2 0 "repo/img1").data) := by
  refine ⟨by decide, by decide, by decide, by decide, by decide⟩

/-! ## Concrete fixtures

The rows inserted by `sqlite_inventory_test.go`, used to instantiate
the hypotheses of the theorems above at concrete inputs. -/

def mcRowLinux : PluginBinaryRow :=
  { pluginName := "management-cluster"
    target := "k8s"
    recommendedVersion := "v0.28.0"
    version := "v0.28.0"
    hidden := false
    description := "Kubernetes management cluster operations"
    publisher := "tkg"
    vendor := "vmware"
    os := "linux"
    architecture := "amd64"
    digest := "0000000000"
    uri := "vmware/tkg/linux/amd64/k8s/management-cluster:v0.28.0" }

def mcRowDarwin : PluginBinaryRow :=
  { mcRowLinux with
    os := "darwin"
    digest := "1111111111"
    uri := "vmware/tkg/darwin/amd64/k8s/management-cluster:v0.28.0" }

def mcRowWindows : PluginBinaryRow :=
  { mcRowLinux with
    version := "v0.26.0"
    os := "windows"
    digest := "2222222222"
    uri := "vmware/tkg/windows/amd64/k8s/management-cluster:v0.26.0" }

def isolatedRow : PluginBinaryRow :=
  { pluginName := "isolated-cluster"
    target := "global"
    recommendedVersion := "v1.2.3"
    version := "v1.2.3"
    hidden := false
    description := "Isolated cluster plugin"
    publisher := "otherpublisher"
    vendor := "othervendor"
    os := "linux"
    architecture := "amd64"
    digest := "3333333333"
    uri := "othervendor/otherpublisher/linux/amd64/global/isolated-cluster:v1.2.3" }

def testRows : List PluginBinaryRow :=
  [mcRowLinux, mcRowDarwin, mcRowWindows, isolatedRow]

/-- The aggregated entry the tests expect for `management-cluster`
(with repository root `""`). -/
def mcEntry : PluginInventoryEntry :=
  { name := "management-cluster"
    target := "kubernetes"
    description := "Kubernetes management cluster operations"
    publisher := "tkg"
    vendor := "vmware"
    recommendedVersion := "v0.28.0"
    availableVersions := ["v0.26.0", "v0.28.0"]
    artifacts :=
      [("v0.26.0",
        [{ os := "windows", arch := "amd64", digest := "2222222222",
           image := "/vmware/tkg/windows/amd64/k8s/management-cluster:v0.26.0" }]),
       ("v0.28.0",
        [{ os := "linux", arch := "amd64", digest := "0000000000",
           image := "/vmware/tkg/linux/amd64/k8s/management-cluster:v0.28.0" },
         { os := "darwin", arch := "amd64", digest := "1111111111",
           image := "/vmware/tkg/darwin/amd64/k8s/management-cluster:v0.28.0" }])] }

/-- The filter of the "recommended version for an os/arch" test:
plugin `management-cluster`, target `kubernetes`, version = sentinel,
darwin/amd64. -/
def latestFilter : PluginInventoryFilter :=
  { name := "management-cluster"
    target := "kubernetes"
    version := "latest"
    os := "darwin"
    arch := "amd64" }

/-- Witness for C1: the `management-cluster` entry of the test store,
whose rows store `RecommendedVersion = "v0.28.0"`. -/
theorem claim1_witness :
    ∃ g : List PluginBinaryRow, g ≠ [] ∧
      (∀ r ∈ g, r ∈ testRows ∧ r.pluginName = mcEntry.name) ∧
      ((∃ r ∈ g, r.recommendedVersion ≠ "") →
        (∃ r ∈ g, r.recommendedVersion ≠ "" ∧
          mcEntry.recommendedVersion = r.recommendedVersion) ∧
        ∀ v : String, (∀ r ∈ g, r.recommendedVersion ≠ "" → r.recommendedVersion = v) →
          mcEntry.recommendedVersion = v) ∧
      ((∀ r ∈ g, r.recommendedVersion = "") →
        mcEntry.recommendedVersion ∈ mcEntry.availableVersions ∧
        ∀ v ∈ mcEntry.availableVersions,
          semverLe v mcEntry.recommendedVersion = true) :=
  claim1_recommended_version_rule "" testRows emptyFilter mcEntry (Or.inl (by decide))

/-- Witness for C2: resolving the sentinel for
`management-cluster`/`kubernetes` on darwin/amd64 over the test
store. -/
theorem claim2_witness :
    GetPlugins ⟨"", .ready testRows⟩ latestFilter =
      .ok (entriesFromRows ""
        (testRows.filter (rowMatches { latestFilter with
          version := recommendedForFilter testRows latestFilter }))) ∧
    (∀ e ∈ resOk (GetPlugins ⟨"", .ready testRows⟩ latestFilter),
      e.availableVersions = [recommendedForFilter testRows latestFilter] ∧
      e.artifacts.map Prod.fst = [recommendedForFilter testRows latestFilter]) ∧
    (testRows.filter (rowMatches { latestFilter with
        version := recommendedForFilter testRows latestFilter }) = [] →
      GetPlugins ⟨"", .ready testRows⟩ latestFilter = .ok []) :=
  claim2_latest_sentinel "" testRows latestFilter rfl (by decide)

/-- An environment in which extraction of the bundle fails. -/
def extractFailEnv : UploadEnv :=
  { tempDirOk := true
    tempDir := "/tmp/w"
    unTarOk := false
    readManifestOk := true
    parsedManifest := none
    joinURL := fun _ _ => .ok ""
    copyImageFromTar := fun _ _ => .ok ()
    pushImage := fun _ _ => .ok ()
    downloadImage := fun _ _ => .ok ()
    mergeDownloadedMetadata := .ok () }

/-- Witness for C5: with extraction failing, the run errors out with an
empty transfer trace. -/
theorem claim5_witness :
    (∃ e, (UploadPluginBundle extractFailEnv "example.com/repo").1 = .error e) ∧
    (UploadPluginBundle extractFailEnv "example.com/repo").2 = [] :=
  claim5_no_transfer_before_manifest extractFailEnv "example.com/repo" (Or.inl rfl)

/-- Witness for C10: the stored-"k8s" row of the test store yields an
entry with target "kubernetes". -/
theorem claim10_witness :
    (mcRowLinux.target = "k8s" → ∃ e ∈ resOk (GetAllPlugins ⟨"", .ready testRows⟩),
      e.name = mcRowLinux.pluginName ∧ e.target = "kubernetes") ∧
    (mcRowLinux.target = "tmc" → ∃ e ∈ resOk (GetAllPlugins ⟨"", .ready testRows⟩),
      e.name = mcRowLinux.pluginName ∧ e.target = "mission-control") ∧
    (mcRowLinux.target = "global" → ∃ e ∈ resOk (GetAllPlugins ⟨"", .ready testRows⟩),
      e.name = mcRowLinux.pluginName ∧ e.target = "") :=
  claim10_target_normalization "" testRows mcRowLinux (by decide)
